import Mathlib

/-!
Shallow embedding of `utils/augmentations.py` (Yolact_minimal): the joint
image / masks / boxes / labels augmentation pipeline.

Modelling choices:
* pixel values and box coordinates are rationals (`ℚ`), modelling the float
  arithmetic of the source exactly for the operations involved;
* an image is a list of rows, each row a list of pixels, a pixel a list of
  channel values; a mask is a list of rows of rationals;
* numpy array operations (slice, boolean indexing, elementwise arithmetic)
  become the corresponding total list operations;
* the process-wide random source (`random.choice`, `random.uniform`,
  `random.randint(0,1)`) becomes an explicit stream of draws threaded
  through the randomized transforms;
* `cv2.resize` is an external black-box primitive (out of scope per the
  design document); it is modelled as a deterministic nearest-neighbour
  sampler producing the requested output size.
-/

/-- A pixel: list of channel values (BGR order in the source). -/
abbrev Pixel := List ℚ

/-- An image: rows of pixels, numpy shape (height, width, channels). -/
abbrev Image := List (List Pixel)

/-- A single instance mask: rows of values, numpy shape (height, width). -/
abbrev Mask := List (List ℚ)

/-- An axis-aligned box `(x1, y1, x2, y2)` as stored in the `boxes` array. -/
structure Box where
  x1 : ℚ
  y1 : ℚ
  x2 : ℚ
  y2 : ℚ
deriving DecidableEq, Repr

/-- The label bundle: `labels['labels']` (class ids) and `labels['num_crowds']`. -/
structure Labels where
  labels : List ℕ
  num_crowds : ℕ
deriving DecidableEq, Repr

/-- The 4-tuple `(image, masks, boxes, labels)` threaded through every transform. -/
structure Sample where
  image : Image
  masks : List Mask
  boxes : List Box
  labels : Labels
deriving DecidableEq, Repr

/-- `image.shape[0]`: number of rows. -/
def imHeight (im : Image) : ℕ := im.length

/-- `image.shape[1]`: number of columns (length of the first row; 0 for an
empty image, matching a degenerate numpy array). -/
def imWidth (im : Image) : ℕ := (im.headD []).length

/-- Build a `h × w` grid from a generator, modelling numpy array construction
plus slice assignment. -/
def mkGrid (h w : ℕ) (f : ℕ → ℕ → α) : List (List α) :=
  (List.range h).map (fun i => (List.range w).map (fun j => f i j))

/-- Read entry `(i, j)` of a 2-dimensional list array, defaulting out of range. -/
def getEntry (g : List (List α)) (i j : ℕ) (d : α) : α :=
  ((g.getD i []).getD j d)

/-- Python `int(...)`: truncation toward zero (`Int.tdiv` is T-division, so
`num / den` truncates toward zero; on the nonnegative values produced by
`random.uniform` this equals the floor). -/
def pyInt (q : ℚ) : ℤ := Int.tdiv q.num (q.den : ℤ)

/-- numpy `arr.min()` (the source only applies it to nonempty arrays). -/
def listMin (l : List ℚ) : ℚ := l.foldl min (l.headD 0)

/-- numpy `arr.max()` (the source only applies it to nonempty arrays). -/
def listMax (l : List ℚ) : ℚ := l.foldl max (l.headD 0)

/-- numpy boolean indexing `xs[mask]`. -/
def filterZip (mask : List Bool) (xs : List α) : List α :=
  ((mask.zip xs).filter (fun p => p.1)).map (fun p => p.2)

/-- numpy slice `g[a:b, c:d]` on a 2-dimensional list array (nonnegative
bounds, as produced by the crop sampler). -/
def crop2d (a b c d : ℕ) (g : List (List α)) : List (List α) :=
  ((g.drop a).take (b - a)).map (fun row => (row.drop c).take (d - c))

/-! ## Geometric primitives (`intersect`, `jaccard_numpy`) -/

/-- Area `(x2 - x1) * (y2 - y1)` of a box as computed in `jaccard_numpy`. -/
def boxArea (b : Box) : ℚ := (b.x2 - b.x1) * (b.y2 - b.y1)

/-- One entry of `intersect(box_a, box_b)`: clamped overlap area of a box of
the array against the reference box. -/
def interArea (a b : Box) : ℚ :=
  max 0 (min a.x2 b.x2 - max a.x1 b.x1) * max 0 (min a.y2 b.y2 - max a.y1 b.y1)

/-- `intersect(box_a, box_b)`: per-box clipped overlap areas. -/
def intersect (box_a : List Box) (box_b : Box) : List ℚ :=
  box_a.map (fun a => interArea a box_b)

/-- The union denominator `area_a + area_b - inter` computed in `jaccard_numpy`. -/
def unionDenom (a b : Box) : ℚ := boxArea a + boxArea b - interArea a b

/-- `jaccard_numpy(box_a, box_b)`: per-box Jaccard overlap `inter / union`.
Division is unguarded in the source; over `ℚ` a zero denominator yields the
(junk) value 0 rather than a float non-finite value. -/
def jaccard_numpy (box_a : List Box) (box_b : Box) : List ℚ :=
  box_a.map (fun a => interArea a box_b / unionDenom a box_b)

/-! ## The random source

`random.choice`, `random.uniform`, `random.randint(0, 1)` draw from the
process-wide random source; we model it as explicit streams of draws.
`random.uniform a b` returns `a + (b - a) * f` with `f` the next fraction of
the stream clamped into `[0, 1]`. -/

structure RandSrc where
  coins : List Bool
  choices : List ℕ
  fracs : List ℚ
deriving DecidableEq, Repr

/-- `random.randint(0, 1)` as a boolean coin. -/
def drawCoin (r : RandSrc) : Bool × RandSrc :=
  (r.coins.headD false, { r with coins := r.coins.tail })

/-- `random.choice` over a list of `n` options: the next index draw, mod `n`. -/
def drawChoice (r : RandSrc) : ℕ × RandSrc :=
  (r.choices.headD 0, { r with choices := r.choices.tail })

/-- `random.uniform a b`. -/
def drawUniform (a b : ℚ) (r : RandSrc) : ℚ × RandSrc :=
  (a + (b - a) * min 1 (max 0 (r.fracs.headD 0)), { r with fracs := r.fracs.tail })

/-- A transform consumes the sample 4-tuple and the random source. -/
abbrev Transform := Sample → RandSrc → Sample × RandSrc

/-- Lift a transform that never touches the random source. -/
def liftD (f : Sample → Sample) : Transform := fun s r => (f s, r)

/-- `Compose`: thread the 4-tuple through the transforms in order. -/
def compose (ts : List Transform) : Transform :=
  fun s r => ts.foldl (fun acc t => t acc.1 acc.2) (s, r)

/-! ## Deterministic transforms -/

/-- `ConvertFromInts`: `image.astype(np.float32)` — a dtype conversion only;
pixel values are already rationals in this model. -/
def convertFromInts (s : Sample) : Sample := s

/-- `ToAbsoluteCoords`: scale box x by image width and y by image height. -/
def toAbsoluteCoords (s : Sample) : Sample :=
  let height : ℚ := imHeight s.image
  let width : ℚ := imWidth s.image
  { s with boxes := s.boxes.map (fun b =>
      ⟨b.x1 * width, b.y1 * height, b.x2 * width, b.y2 * height⟩) }

/-- `ToPercentCoords`: divide box x by image width and y by image height. -/
def toPercentCoords (s : Sample) : Sample :=
  let height : ℚ := imHeight s.image
  let width : ℚ := imWidth s.image
  { s with boxes := s.boxes.map (fun b =>
      ⟨b.x1 / width, b.y1 / height, b.x2 / width, b.y2 / height⟩) }

/-- The per-channel background constant `(103.94, 116.78, 123.68)` (BGR). -/
def meanPixel : Pixel := [10394/100, 11678/100, 12368/100]

/-- `Pad`: place the image at the top-left of a `height × width` canvas filled
with `meanPixel`; when `pad_gt`, pad each mask identically with zeros. -/
def pad (width height : ℕ) (pad_gt : Bool) (s : Sample) : Sample :=
  let im_h := imHeight s.image
  let im_w := imWidth s.image
  let expand_image := mkGrid height width (fun i j =>
    if i < im_h ∧ j < im_w then getEntry s.image i j [] else meanPixel)
  let masks := if pad_gt then
      s.masks.map (fun m => mkGrid height width (fun i j =>
        if i < im_h ∧ j < im_w then getEntry m i j 0 else 0))
    else s.masks
  { s with image := expand_image, masks := masks }

/-- Black-box model of the external `cv2.resize` primitive on an image
(out of scope per the design document): deterministic nearest-neighbour
sampling producing a `h × w` result. -/
def cv2_resize (w h : ℕ) (im : Image) : Image :=
  mkGrid h w (fun i j => getEntry im (i * imHeight im / h) (j * imWidth im / w) [])

/-- The same black-box resize on a single mask. The source resizes all masks
at once by packing them as channels of one image (with a special case
restoring the dimension that a single-channel resize collapses); per-channel
sampling makes that identical to resizing each mask separately. -/
def cv2_resize_mask (w h : ℕ) (m : Mask) : Mask :=
  mkGrid h w (fun i j => getEntry m (i * m.length / h) (j * (m.headD []).length / w) 0)

/-- `Resize`: stretch the image to `img_size × img_size`; when `resize_gt`,
resize each mask the same way and scale boxes by the width/height ratios. -/
def resize (img_size : ℕ) (resize_gt : Bool) (s : Sample) : Sample :=
  let img_h := imHeight s.image
  let img_w := imWidth s.image
  let image := cv2_resize img_size img_size s.image
  if resize_gt then
    let rx : ℚ := (img_size : ℚ) / (img_w : ℚ)
    let ry : ℚ := (img_size : ℚ) / (img_h : ℚ)
    { image := image
      masks := s.masks.map (cv2_resize_mask img_size img_size)
      boxes := s.boxes.map (fun b => ⟨b.x1 * rx, b.y1 * ry, b.x2 * rx, b.y2 * ry⟩)
      labels := s.labels }
  else { s with image := image }

/-- The per-channel normalization mean (BGR order). -/
def normMean : List ℚ := [10394/100, 11678/100, 12368/100]

/-- The per-channel normalization standard deviation (BGR order). -/
def normStd : List ℚ := [5738/100, 5712/100, 5840/100]

/-- `NormalizeAndToRGB` on one pixel: `(p - mean) / std`, then channel
reorder `(2, 1, 0)` (BGR to RGB). -/
def normalizePixel (p : Pixel) : Pixel :=
  let q := (List.range p.length).map (fun k => (p.getD k 0 - normMean.getD k 0) / normStd.getD k 0)
  [q.getD 2 0, q.getD 1 0, q.getD 0 0]

/-- `NormalizeAndToRGB` on the sample. -/
def normalizeAndToRGB (s : Sample) : Sample :=
  { s with image := s.image.map (fun row => row.map normalizePixel) }

/-- `ValAug`: ConvertFromInts, Resize without ground-truth resize, Pad without
ground-truth pad, NormalizeAndToRGB. -/
def valAug (img_size : ℕ) : Transform :=
  compose [liftD convertFromInts,
           liftD (resize img_size false),
           liftD (pad img_size img_size false),
           liftD normalizeAndToRGB]

/-! ## RandomMirror and Expand -/

/-- The mirroring branch of `RandomMirror`: flip image and masks along the
column axis; box x-coordinates become `width - x` with left/right swapped
(`boxes[:, 0::2] = width - boxes[:, 2::-2]`). -/
def mirrorSample (s : Sample) : Sample :=
  let width : ℚ := imWidth s.image
  { image := s.image.map List.reverse
    masks := s.masks.map (fun m => m.map List.reverse)
    boxes := s.boxes.map (fun b => ⟨width - b.x2, b.y1, width - b.x1, b.y2⟩)
    labels := s.labels }

/-- `RandomMirror`: mirror with probability 1/2. -/
def randomMirror : Transform := fun s r =>
  let (coin, r) := drawCoin r
  (if coin then mirrorSample s else s, r)

/-- The expanding branch of `Expand`, given the drawn ratio and offsets:
canvas of size `(int(height*ratio), int(width*ratio))` filled with
`meanPixel` (zeros for masks), the original image placed at row offset
`int(top)` and column offset `int(left)` (the source slice bound
`int(top + height)` equals `int(top) + height` because `height` is an
integer and `top ≥ 0`); boxes translated by `(int(left), int(top))`. -/
def expandBranch (s : Sample) (ratio left top : ℚ) : Sample :=
  let height := imHeight s.image
  let width := imWidth s.image
  let rowLo := (pyInt top).toNat
  let colLo := (pyInt left).toNat
  let H := (pyInt ((height : ℚ) * ratio)).toNat
  let W := (pyInt ((width : ℚ) * ratio)).toNat
  { image := mkGrid H W (fun i j =>
      if rowLo ≤ i ∧ i < rowLo + height ∧ colLo ≤ j ∧ j < colLo + width
      then getEntry s.image (i - rowLo) (j - colLo) [] else meanPixel)
    masks := s.masks.map (fun m => mkGrid H W (fun i j =>
      if rowLo ≤ i ∧ i < rowLo + height ∧ colLo ≤ j ∧ j < colLo + width
      then getEntry m (i - rowLo) (j - colLo) 0 else 0))
    boxes := s.boxes.map (fun b =>
      ⟨b.x1 + (pyInt left : ℚ), b.y1 + (pyInt top : ℚ),
       b.x2 + (pyInt left : ℚ), b.y2 + (pyInt top : ℚ)⟩)
    labels := s.labels }

/-- `Expand`: with probability 1/2 draw `ratio ∈ [1, 4]` and offsets and
expand; otherwise a no-op. -/
def expand : Transform := fun s r =>
  let (coin, r) := drawCoin r
  if coin then
    let height := imHeight s.image
    let width := imWidth s.image
    let (ratio, r) := drawUniform 1 4 r
    let (left, r) := drawUniform 1 ((width : ℚ) * ratio - width) r
    let (top, r) := drawUniform 1 ((height : ℚ) * ratio - height) r
    (expandBranch s ratio left top, r)
  else (s, r)

/-! ## RandomSampleCrop -/

/-- `self.sample_options`: `None` (use the whole image) or a pair
`(min_iou, max_iou)` where `None` stands for `float('-inf')` in the first
component and `float('inf')` in the second. -/
def sample_options : List (Option (Option ℚ × Option ℚ)) :=
  [none,
   some (some (1/10), none),
   some (some (3/10), none),
   some (some (7/10), none),
   some (some (9/10), none),
   some (none, none)]

/-- `v < min_iou` where `min_iou : Option ℚ` with `none = float('-inf')`
(no float is below negative infinity). -/
def belowMinIou (min_iou : Option ℚ) (v : ℚ) : Bool :=
  match min_iou with
  | none => false
  | some m => decide (v < m)

/-- `max_iou < v` where `max_iou : Option ℚ` with `none = float('inf')`
(positive infinity is below no float). -/
def aboveMaxIou (max_iou : Option ℚ) (v : ℚ) : Bool :=
  match max_iou with
  | none => false
  | some m => decide (m < v)

/-- The candidate-rejection test
`overlap.min() < min_iou and max_iou < overlap.max()` of `RandomSampleCrop`
(the known-ineffective overlap-bound check). -/
def overlapRejects (min_iou max_iou : Option ℚ) (overlap : List ℚ) : Bool :=
  belowMinIou min_iou (listMin overlap) && aboveMaxIou max_iou (listMax overlap)

/-- Box center x, from `centers = (boxes[:, :2] + boxes[:, 2:]) / 2.0`. -/
def centerX (b : Box) : ℚ := (b.x1 + b.x2) / 2

/-- Box center y. -/
def centerY (b : Box) : ℚ := (b.y1 + b.y2) / 2

/-- `crowd_mask`: zeros of length `n` with the last `num_crowds` entries set
to 1 when `num_crowds > 0` (entry `i` is set iff `n ≤ i + num_crowds`, which
also covers `num_crowds ≥ n`, where numpy's `[-num_crowds:]` selects all). -/
def crowdMask (n num_crowds : ℕ) : List Bool :=
  (List.range n).map (fun i => decide (n ≤ i + num_crowds))

/-- `mask = m1 * m2`: the box center lies strictly inside the rectangle. -/
def rscSurvives (rx1 ry1 rx2 ry2 : ℤ) (b : Box) : Bool :=
  ((decide ((rx1 : ℚ) < centerX b)) && (decide ((ry1 : ℚ) < centerY b)))
    && ((decide (centerX b < (rx2 : ℚ))) && (decide (centerY b < (ry2 : ℚ))))

/-- The survivor selector of the crop attempt. -/
def rscMask (s : Sample) (rx1 ry1 rx2 ry2 : ℤ) : List Bool :=
  s.boxes.map (rscSurvives rx1 ry1 rx2 ry2)

/-- The clip-then-translate step applied to each surviving box:
`max` with the rectangle's top-left and `min` with its bottom-right, then
subtraction of `(rect_x1, rect_y1)`. -/
def rscAdjust (rx1 ry1 rx2 ry2 : ℤ) (b : Box) : Box :=
  ⟨max b.x1 (rx1 : ℚ) - (rx1 : ℚ), max b.y1 (ry1 : ℚ) - (ry1 : ℚ),
   min b.x2 (rx2 : ℚ) - (rx1 : ℚ), min b.y2 (ry2 : ℚ) - (ry1 : ℚ)⟩

/-- The 4-tuple returned by a successful crop attempt on rectangle
`(rx1, ry1, rx2, ry2)`: cropped image, surviving cropped masks, surviving
clipped-and-translated boxes, surviving labels, recomputed `num_crowds`. -/
def rscOutput (s : Sample) (rx1 ry1 rx2 ry2 : ℤ) : Sample :=
  let mask := rscMask s rx1 ry1 rx2 ry2
  let nc := s.labels.num_crowds
  let cmask := crowdMask mask.length nc
  { image := crop2d ry1.toNat ry2.toNat rx1.toNat rx2.toNat s.image
    masks := (filterZip mask s.masks).map
      (crop2d ry1.toNat ry2.toNat rx1.toNat rx2.toNat)
    boxes := (filterZip mask s.boxes).map (rscAdjust rx1 ry1 rx2 ry2)
    labels := { labels := filterZip mask s.labels.labels
                num_crowds := if 0 < nc
                  then (filterZip mask cmask).countP id
                  else nc } }

/-- One body of the 50-trial loop of `RandomSampleCrop.__call__`, after the
four uniform draws `w, h, left, top`: `none` models `continue` (candidate
discarded), `some` models the `return` of the cropped sample. -/
def rsc_core (s : Sample) (min_iou max_iou : Option ℚ) (w h left top : ℚ) :
    Option Sample :=
  if h / w < 1/2 ∨ 2 < h / w then none
  else
    let rx1 := pyInt left
    let ry1 := pyInt top
    let rx2 := pyInt (left + w)
    let ry2 := pyInt (top + h)
    let rectBox : Box := ⟨(rx1 : ℚ), (ry1 : ℚ), (rx2 : ℚ), (ry2 : ℚ)⟩
    let overlap := jaccard_numpy s.boxes rectBox
    if overlapRejects min_iou max_iou overlap then none
    else
      let mask := rscMask s rx1 ry1 rx2 ry2
      let cmask := crowdMask mask.length s.labels.num_crowds
      if ¬ mask.any id ∨ (filterZip mask cmask).countP (fun c => !c) = 0 then none
      else some (rscOutput s rx1 ry1 rx2 ry2)

/-- One trial of the inner `for _ in range(50)` loop, drawing `w, h` (and
`left, top` only when the aspect-ratio test passes, matching the source's
draw order). -/
def rscTrial (s : Sample) (min_iou max_iou : Option ℚ) (r : RandSrc) :
    Option Sample × RandSrc :=
  let height := imHeight s.image
  let width := imWidth s.image
  let (w, r) := drawUniform (3/10 * width) width r
  let (h, r) := drawUniform (3/10 * height) height r
  if h / w < 1/2 ∨ 2 < h / w then (none, r)
  else
    let (left, r) := drawUniform 1 ((width : ℚ) - w) r
    let (top, r) := drawUniform 1 ((height : ℚ) - h) r
    (rsc_core s min_iou max_iou w h left top, r)

/-- The inner loop: up to `k` trials (50 in the source). -/
def rscTrials : ℕ → Sample → Option ℚ → Option ℚ → RandSrc →
    Option Sample × RandSrc
  | 0, _, _, _, r => (none, r)
  | k + 1, s, min_iou, max_iou, r =>
    match rscTrial s min_iou max_iou r with
    | (some out, r) => (some out, r)
    | (none, r) => rscTrials k s min_iou max_iou r

/-- `RandomSampleCrop.__call__`: the unbounded `while True` loop, given
`fuel` outer iterations; `none` models the loop still running (the source's
accepted non-termination risk), `some` the returned 4-tuple. -/
def randomSampleCrop : ℕ → Sample → RandSrc → Option (Sample × RandSrc)
  | 0, _, _ => none
  | fuel + 1, s, r =>
    let (i, r) := drawChoice r
    match sample_options.getD (i % 6) none with
    | none => some (s, r)
    | some (min_iou, max_iou) =>
      match rscTrials 50 s min_iou max_iou r with
      | (some out, r) => some (out, r)
      | (none, r) => randomSampleCrop fuel s r

/-! ## Shape and well-formedness predicates -/

/-- A well-formed box: `x1 ≤ x2` and `y1 ≤ y2`. -/
def wfBox (b : Box) : Prop := b.x1 ≤ b.x2 ∧ b.y1 ≤ b.y2

instance (b : Box) : Decidable (wfBox b) := by unfold wfBox; infer_instance

/-- A non-degenerate box: strictly positive width and height. -/
def posBox (b : Box) : Prop := b.x1 < b.x2 ∧ b.y1 < b.y2

instance (b : Box) : Decidable (posBox b) := by unfold posBox; infer_instance

/-- A mask whose spatial dimensions equal the image's height and width. -/
def maskDims (im : Image) (m : Mask) : Prop :=
  m.length = imHeight im ∧ ∀ row ∈ m, row.length = imWidth im

instance (im : Image) (m : Mask) : Decidable (maskDims im m) := by
  unfold maskDims; infer_instance

/-- The spatial-alignment invariant `masks.shape[1:] == image.shape[:2]`,
stated per mask. -/
def masksMatchImage (im : Image) (ms : List Mask) : Prop :=
  ∀ m ∈ ms, maskDims im m

instance (im : Image) (ms : List Mask) : Decidable (masksMatchImage im ms) := by
  unfold masksMatchImage; infer_instance

/-- A rectangular image: every row has the image's width. -/
def rectangularImage (im : Image) : Prop := ∀ row ∈ im, row.length = imWidth im

instance (im : Image) : Decidable (rectangularImage im) := by
  unfold rectangularImage; infer_instance

/-! ## Concrete inputs used by counterexamples and witnesses -/

/-- The box-bounds property claimed after a crop with rectangle width `cw`
and height `ch`: both x-coordinates in `[0, cw]`, both y-coordinates in
`[0, ch]`. -/
def boxInCrop (cw ch : ℚ) (b : Box) : Prop :=
  0 ≤ b.x1 ∧ b.x1 ≤ cw ∧ 0 ≤ b.x2 ∧ b.x2 ≤ cw ∧
  0 ≤ b.y1 ∧ b.y1 ≤ ch ∧ 0 ≤ b.y2 ∧ b.y2 ≤ ch

instance (cw ch : ℚ) (b : Box) : Decidable (boxInCrop cw ch b) := by
  unfold boxInCrop; infer_instance

/-- A 10×10 one-channel image with one malformed box (`x1 > x2`), one mask
and one label, no crowds. -/
def sC1 : Sample :=
  { image := mkGrid 10 10 (fun _ _ => [0])
    masks := [mkGrid 10 10 (fun _ _ => 0)]
    boxes := [⟨10, 2, 0, 3⟩]
    labels := { labels := [7], num_crowds := 0 } }

/-- Draws selecting mode `(0.1, None)`, then `w = 5, h = 5, left = 3, top = 1`
(crop rectangle `(3, 1, 8, 6)`). -/
def rC1 : RandSrc := { coins := [], choices := [1], fracs := [2/7, 2/7, 1/2, 0] }

/-- The sample returned by `RandomSampleCrop` on `sC1` with draws `rC1`. -/
def outC1 : Sample :=
  { image := mkGrid 5 5 (fun _ _ => [0])
    masks := [mkGrid 5 5 (fun _ _ => 0)]
    boxes := [⟨7, 1, -3, 2⟩]
    labels := { labels := [7], num_crowds := 0 } }

/-- A 1×1 image with one aligned 1×1 mask and no boxes. -/
def sC3 : Sample :=
  { image := [[[0]]]
    masks := [[[0]]]
    boxes := []
    labels := { labels := [], num_crowds := 0 } }

/-- A 1×1 image with a half-unit percent-coordinates box. -/
def sW6 : Sample :=
  { image := [[[5]]]
    masks := []
    boxes := [⟨1/2, 1/3, 1, 1⟩]
    labels := { labels := [], num_crowds := 0 } }

/-- A random source whose first mode choice selects the no-crop mode. -/
def rNoop3 : RandSrc := { coins := [], choices := [0], fracs := [] }

/-- A 10×10 one-channel image with one well-formed box, one mask, one label. -/
def sW1 : Sample :=
  { image := mkGrid 10 10 (fun _ _ => [0])
    masks := [mkGrid 10 10 (fun _ _ => 0)]
    boxes := [⟨4, 2, 6, 4⟩]
    labels := { labels := [3], num_crowds := 0 } }

/-- The output of the crop attempt on `sW1` with rectangle `(3, 1, 8, 6)`. -/
def outW1 : Sample := rscOutput sW1 3 1 8 6

/-- A sample with one crowd annotation among two boxes. -/
def sW4 : Sample :=
  { image := [[[0], [0]], [[0], [0]]]
    masks := [[[1, 0], [0, 0]], [[0, 0], [0, 1]]]
    boxes := [⟨0, 0, 1, 1⟩, ⟨1, 1, 2, 2⟩]
    labels := { labels := [2, 5], num_crowds := 1 } }

/-- A random source whose first mode choice selects the no-crop mode. -/
def rNoop4 : RandSrc := { coins := [], choices := [6], fracs := [] }

/-- A sample with one well-formed box on a 2×2 image. -/
def sW10 : Sample :=
  { image := [[[0], [0]], [[0], [0]]]
    masks := [[[1, 0], [0, 0]]]
    boxes := [⟨0, 0, 2, 1⟩]
    labels := { labels := [4], num_crowds := 0 } }

/-- A random source whose first mode choice selects the no-crop mode. -/
def rNoop10 : RandSrc := { coins := [true], choices := [0], fracs := [1/3, 1/3, 1/3] }

/-! ## Helper lemmas -/

theorem interArea_le_boxArea (a b : Box) (ha : wfBox a) :
    interArea a b ≤ boxArea a := by
  obtain ⟨hx, hy⟩ := ha
  have h1 : max 0 (min a.x2 b.x2 - max a.x1 b.x1) ≤ a.x2 - a.x1 := by
    apply max_le (by linarith)
    have := min_le_left a.x2 b.x2
    have := le_max_left a.x1 b.x1
    linarith
  have h2 : max 0 (min a.y2 b.y2 - max a.y1 b.y1) ≤ a.y2 - a.y1 := by
    apply max_le (by linarith)
    have := min_le_left a.y2 b.y2
    have := le_max_left a.y1 b.y1
    linarith
  have h0 : (0 : ℚ) ≤ max 0 (min a.y2 b.y2 - max a.y1 b.y1) := le_max_left 0 _
  calc interArea a b
      ≤ (a.x2 - a.x1) * max 0 (min a.y2 b.y2 - max a.y1 b.y1) := by
        unfold interArea
        exact mul_le_mul_of_nonneg_right h1 h0
    _ ≤ (a.x2 - a.x1) * (a.y2 - a.y1) := by
        exact mul_le_mul_of_nonneg_left h2 (by linarith)
    _ = boxArea a := rfl

theorem imWidth_map_reverse (im : Image) :
    imWidth (im.map List.reverse) = imWidth im := by
  cases im <;> simp [imWidth]

/-! ## Claim theorems -/

/-- C5: for well-formed `boxesA` and a reference box of strictly positive
area, the union denominator inside `jaccard_numpy` is strictly positive for
every entry, so the (unguarded) division never divides by zero; and for an
arbitrary reference box (zero area included) the division is unguarded and
total — a full-length result list propagates, no error is raised. -/
theorem C5_union_denominator_pos (boxes : List Box) (b : Box)
    (hwf : ∀ a ∈ boxes, wfBox a) (hb : 0 < boxArea b) :
    (∀ a ∈ boxes, 0 < unionDenom a b) ∧
    ∀ b2 : Box, (jaccard_numpy boxes b2).length = boxes.length := by
  constructor
  · intro a ha
    have h := interArea_le_boxArea a b (hwf a ha)
    unfold unionDenom
    linarith
  · intro b2
    exact List.length_map _ _

unseal Rat.add Rat.mul Rat.inv Rat.sub in
/-- Witness for C5 at a concrete box array and reference box. -/
theorem C5_union_denominator_pos_witness :
    (∀ a ∈ [(⟨0, 0, 1, 1⟩ : Box)], wfBox a) ∧ 0 < boxArea ⟨0, 0, 2, 2⟩ ∧
    ((∀ a ∈ [(⟨0, 0, 1, 1⟩ : Box)], 0 < unionDenom a ⟨0, 0, 2, 2⟩) ∧
     ∀ b2 : Box, (jaccard_numpy [(⟨0, 0, 1, 1⟩ : Box)] b2).length =
       [(⟨0, 0, 1, 1⟩ : Box)].length) :=
  ⟨by decide, by decide,
   C5_union_denominator_pos [⟨0, 0, 1, 1⟩] ⟨0, 0, 2, 2⟩ (by decide) (by decide)⟩

/-- C7: `jaccard_numpy` applied to a non-degenerate box against itself
returns exactly 1. -/
theorem C7_jaccard_self (b : Box) (h : posBox b) :
    jaccard_numpy [b] b = [1] := by
  obtain ⟨hx, hy⟩ := h
  have hx' : (0 : ℚ) < b.x2 - b.x1 := by linarith
  have hy' : (0 : ℚ) < b.y2 - b.y1 := by linarith
  have hinter : interArea b b = (b.x2 - b.x1) * (b.y2 - b.y1) := by
    unfold interArea
    rw [min_self, min_self, max_self, max_self, max_eq_right hx'.le,
      max_eq_right hy'.le]
  have harea : boxArea b = (b.x2 - b.x1) * (b.y2 - b.y1) := rfl
  have hX : (b.x2 - b.x1) * (b.y2 - b.y1) ≠ 0 := (mul_pos hx' hy').ne'
  unfold jaccard_numpy unionDenom
  simp only [List.map_cons, List.map_nil, hinter, harea, List.cons.injEq,
    and_true]
  rw [show (b.x2 - b.x1) * (b.y2 - b.y1) + (b.x2 - b.x1) * (b.y2 - b.y1) -
      (b.x2 - b.x1) * (b.y2 - b.y1) = (b.x2 - b.x1) * (b.y2 - b.y1) from by
    ring]
  exact div_self hX

unseal Rat.add Rat.mul Rat.inv Rat.sub in
/-- Witness for C7 at the unit box. -/
theorem C7_jaccard_self_witness :
    posBox ⟨0, 0, 1, 1⟩ ∧ jaccard_numpy [⟨0, 0, 1, 1⟩] ⟨0, 0, 1, 1⟩ = [1] :=
  ⟨by decide, C7_jaccard_self ⟨0, 0, 1, 1⟩ (by decide)⟩

/-- C2: every constrained mode of `sample_options` has no upper overlap
bound, so the rejection test
`overlap.min() < min_iou and max_iou < overlap.max()` is false for every
candidate rectangle's overlap vector. -/
theorem C2_overlap_test_never_rejects :
    ∀ mode ∈ sample_options, ∀ min_iou max_iou : Option ℚ,
      mode = some (min_iou, max_iou) →
      ∀ overlap : List ℚ, overlapRejects min_iou max_iou overlap = false := by
  intro mode hmem min_iou max_iou hmode overlap
  have hma : max_iou = none := by
    fin_cases hmem
    · exact Option.noConfusion hmode
    all_goals
      rw [Option.some_inj, Prod.mk.injEq] at hmode
      exact hmode.2.symm
  subst hma
  simp [overlapRejects, aboveMaxIou, Bool.and_false]

unseal Rat.add Rat.mul Rat.inv Rat.sub in
/-- Witness for C2 at the mode `(0.1, None)` and a concrete overlap vector. -/
theorem C2_overlap_test_never_rejects_witness :
    some (some (1/10), none) ∈ sample_options ∧
    overlapRejects (some (1/10)) none [0] = false :=
  ⟨by decide,
   C2_overlap_test_never_rejects (some (some (1/10), none)) (by decide)
     (some (1/10)) none rfl [0]⟩

/-- C6: for an image with positive height and width, `ToAbsoluteCoords` and
`ToPercentCoords` are mutual inverses on the boxes (exact over `ℚ`). -/
theorem C6_coords_round_trip (s : Sample)
    (hh : 0 < imHeight s.image) (hw : 0 < imWidth s.image) :
    toPercentCoords (toAbsoluteCoords s) = s ∧
    toAbsoluteCoords (toPercentCoords s) = s := by
  obtain ⟨im, mk, bx, lb⟩ := s
  have hW : ((imWidth im : ℚ)) ≠ 0 := Nat.cast_ne_zero.mpr hw.ne'
  have hH : ((imHeight im : ℚ)) ≠ 0 := Nat.cast_ne_zero.mpr hh.ne'
  constructor
  · simp only [toAbsoluteCoords, toPercentCoords, Sample.mk.injEq, List.map_map]
    refine ⟨trivial, trivial, ?_, trivial⟩
    conv_rhs => rw [← List.map_id bx]
    apply List.map_congr_left
    intro b _
    cases b
    simp only [Function.comp_apply, id_eq, Box.mk.injEq]
    exact ⟨mul_div_cancel_right₀ _ hW, mul_div_cancel_right₀ _ hH,
      mul_div_cancel_right₀ _ hW, mul_div_cancel_right₀ _ hH⟩
  · simp only [toAbsoluteCoords, toPercentCoords, Sample.mk.injEq, List.map_map]
    refine ⟨trivial, trivial, ?_, trivial⟩
    conv_rhs => rw [← List.map_id bx]
    apply List.map_congr_left
    intro b _
    cases b
    simp only [Function.comp_apply, id_eq, Box.mk.injEq]
    exact ⟨div_mul_cancel₀ _ hW, div_mul_cancel₀ _ hH,
      div_mul_cancel₀ _ hW, div_mul_cancel₀ _ hH⟩

unseal Rat.add Rat.mul Rat.inv Rat.sub in
/-- Witness for C6 at a concrete 1×1 image and box. -/
theorem C6_coords_round_trip_witness :
    0 < imHeight sW6.image ∧ 0 < imWidth sW6.image ∧
    toPercentCoords (toAbsoluteCoords sW6) = sW6 ∧
    toAbsoluteCoords (toPercentCoords sW6) = sW6 :=
  ⟨by decide, by decide,
   (C6_coords_round_trip sW6 (by decide) (by decide)).1,
   (C6_coords_round_trip sW6 (by decide) (by decide)).2⟩

/-- C8: the mirroring branch of `RandomMirror` is an involution on the full
sample (image, masks, boxes, labels). -/
theorem C8_mirror_involution (s : Sample) :
    mirrorSample (mirrorSample s) = s := by
  obtain ⟨im, mk, bx, lb⟩ := s
  simp only [mirrorSample, imWidth_map_reverse, Sample.mk.injEq, List.map_map]
  refine ⟨?_, ?_, ?_, trivial⟩
  · conv_rhs => rw [← List.map_id im]
    apply List.map_congr_left
    intro row _
    simp
  · conv_rhs => rw [← List.map_id mk]
    apply List.map_congr_left
    intro m _
    simp only [Function.comp_apply, List.map_map, id_eq]
    conv_rhs => rw [← List.map_id m]
    apply List.map_congr_left
    intro row _
    simp
  · conv_rhs => rw [← List.map_id bx]
    apply List.map_congr_left
    intro b _
    cases b
    simp only [Function.comp_apply, id_eq, Box.mk.injEq]
    refine ⟨by ring, trivial, by ring, trivial⟩

/-- C9: the validation pipeline consumes no randomness, so its output does
not depend on the random source and the source is returned untouched. -/
theorem C9_val_pipeline_deterministic (img_size : ℕ) (s : Sample)
    (r1 r2 : RandSrc) :
    (valAug img_size s r1).1 = (valAug img_size s r2).1 ∧
    (valAug img_size s r1).2 = r1 :=
  ⟨rfl, rfl⟩

theorem filterZip_nil (xs : List α) : filterZip [] xs = [] := rfl

theorem filterZip_cons (a : Bool) (m : List Bool) (x : α) (xs : List α) :
    filterZip (a :: m) (x :: xs) =
      if a then x :: filterZip m xs else filterZip m xs := by
  cases a <;> simp [filterZip]

theorem filterZip_sublist (m : List Bool) (xs : List α) :
    (filterZip m xs).Sublist xs := by
  induction m generalizing xs with
  | nil => simp [filterZip_nil]
  | cons a m ih =>
    cases xs with
    | nil => simp [filterZip]
    | cons x xs =>
      rw [filterZip_cons]
      cases a with
      | false => simpa using (ih xs).trans (List.sublist_cons_self x xs)
      | true => simpa using (ih xs).cons₂ x

theorem filterZip_length_eq (m : List Bool) (xs : List α)
    (h : xs.length = m.length) :
    (filterZip m xs).length = m.countP id := by
  induction m generalizing xs with
  | nil => simp [filterZip_nil]
  | cons a m ih =>
    cases xs with
    | nil => simp at h
    | cons x xs =>
      rw [filterZip_cons]
      simp only [List.length_cons, Nat.succ.injEq] at h
      cases a with
      | false => simp [ih xs h, List.countP_cons]
      | true => simp [ih xs h, List.countP_cons]

theorem mem_filterZip_map (f : α → Bool) (xs : List α) (y : α)
    (h : y ∈ filterZip (xs.map f) xs) : f y = true ∧ y ∈ xs := by
  induction xs with
  | nil => simp [filterZip_nil] at h
  | cons x xs ih =>
    simp only [List.map_cons] at h
    rw [filterZip_cons] at h
    by_cases hf : f x = true
    · rw [if_pos hf] at h
      rcases List.mem_cons.mp h with rfl | h'
      · exact ⟨hf, List.mem_cons_self _ _⟩
      · obtain ⟨h1, h2⟩ := ih h'
        exact ⟨h1, List.mem_cons_of_mem x h2⟩
    · rw [if_neg hf] at h
      obtain ⟨h1, h2⟩ := ih h
      exact ⟨h1, List.mem_cons_of_mem x h2⟩

theorem crop2d_length (a b c d : ℕ) (g : List (List α)) :
    (crop2d a b c d g).length = min (b - a) (g.length - a) := by
  simp [crop2d]

theorem mem_crop2d {a b c d : ℕ} {g : List (List α)} {row : List α}
    (h : row ∈ crop2d a b c d g) :
    ∃ orig ∈ g, row = (orig.drop c).take (d - c) := by
  simp only [crop2d, List.mem_map] at h
  obtain ⟨orig, horig, rfl⟩ := h
  exact ⟨orig, List.mem_of_mem_drop (List.mem_of_mem_take horig), rfl⟩

theorem length_mkGrid (h w : ℕ) (f : ℕ → ℕ → α) :
    (mkGrid h w f).length = h := by
  simp [mkGrid]

theorem imWidth_mkGrid_pos (h w : ℕ) (f : ℕ → ℕ → Pixel) (hh : 0 < h) :
    imWidth (mkGrid h w f) = w := by
  cases h with
  | zero => exact absurd hh (by simp)
  | succ n => simp [mkGrid, imWidth, List.range_succ_eq_map]

theorem row_length_mkGrid {h w : ℕ} {f : ℕ → ℕ → α} {row : List α}
    (hrow : row ∈ mkGrid h w f) : row.length = w := by
  simp only [mkGrid, List.mem_map] at hrow
  obtain ⟨i, _, rfl⟩ := hrow
  simp

theorem maskDims_mkGrid (h w : ℕ) (f : ℕ → ℕ → Pixel) (g : ℕ → ℕ → ℚ) :
    maskDims (mkGrid h w f) (mkGrid h w g) := by
  constructor
  · simp [imHeight, length_mkGrid]
  · intro row hrow
    have hh : 0 < h := by
      rcases Nat.eq_zero_or_pos h with rfl | hh
      · simp [mkGrid] at hrow
      · exact hh
    rw [imWidth_mkGrid_pos h w f hh]
    exact row_length_mkGrid hrow

theorem maskDims_crop2d {im : Image} {m : Mask} (a b c d : ℕ)
    (hrect : rectangularImage im) (hm : maskDims im m) :
    maskDims (crop2d a b c d im) (crop2d a b c d m) := by
  obtain ⟨hlen, hrows⟩ := hm
  have hlen' : m.length = im.length := by simpa [imHeight] using hlen
  constructor
  · simp [imHeight, crop2d_length, hlen']
  · intro row hrow
    obtain ⟨orig, horig, rfl⟩ := mem_crop2d hrow
    rcases him : crop2d a b c d im with _ | ⟨r0, rest⟩
    · exfalso
      have h0 : (crop2d a b c d im).length = 0 := by rw [him]; rfl
      rw [crop2d_length] at h0
      have h1 : (crop2d a b c d m).length = 0 := by
        rw [crop2d_length, hlen']
        exact h0
      rw [List.length_eq_zero] at h1
      rw [h1] at hrow
      simp at hrow
    · have hr0 : r0 ∈ crop2d a b c d im := by rw [him]; exact List.mem_cons_self _ _
      obtain ⟨orig0, horig0, rfl⟩ := mem_crop2d hr0
      show _ = imWidth (_ :: rest)
      have h2 : imWidth ((orig0.drop c).take (d - c) :: rest) =
          ((orig0.drop c).take (d - c)).length := rfl
      rw [h2]
      simp only [List.length_take, List.length_drop]
      rw [hrows orig horig, hrect orig0 horig0]

theorem masksMatchImage_mirrorSample {s : Sample}
    (h : masksMatchImage s.image s.masks) :
    masksMatchImage (mirrorSample s).image (mirrorSample s).masks := by
  intro m hm
  simp only [mirrorSample, List.mem_map] at hm
  obtain ⟨m0, hm0, rfl⟩ := hm
  obtain ⟨hlen, hrows⟩ := h m0 hm0
  constructor
  · simpa [mirrorSample, imHeight] using hlen
  · intro row hrow
    simp only [List.mem_map] at hrow
    obtain ⟨row0, hrow0, rfl⟩ := hrow
    show _ = imWidth (s.image.map List.reverse)
    rw [imWidth_map_reverse]
    simpa using hrows row0 hrow0

theorem masksMatchImage_expandBranch (s : Sample) (ratio left top : ℚ) :
    masksMatchImage (expandBranch s ratio left top).image
      (expandBranch s ratio left top).masks := by
  intro m hm
  simp only [expandBranch, List.mem_map] at hm
  obtain ⟨m0, _, rfl⟩ := hm
  exact maskDims_mkGrid _ _ _ _

theorem masksMatchImage_pad_gt (s : Sample) (width height : ℕ) :
    masksMatchImage (pad width height true s).image
      (pad width height true s).masks := by
  intro m hm
  simp only [pad, if_true, List.mem_map] at hm
  obtain ⟨m0, _, rfl⟩ := hm
  exact maskDims_mkGrid _ _ _ _

theorem masksMatchImage_resize_gt (s : Sample) (img_size : ℕ) :
    masksMatchImage (resize img_size true s).image
      (resize img_size true s).masks := by
  intro m hm
  simp only [resize, if_true, List.mem_map] at hm
  obtain ⟨m0, _, rfl⟩ := hm
  exact maskDims_mkGrid _ _ _ _

theorem masksMatchImage_rscOutput {s : Sample} (rx1 ry1 rx2 ry2 : ℤ)
    (halign : masksMatchImage s.image s.masks)
    (hrect : rectangularImage s.image) :
    masksMatchImage (rscOutput s rx1 ry1 rx2 ry2).image
      (rscOutput s rx1 ry1 rx2 ry2).masks := by
  intro m hm
  simp only [rscOutput, List.mem_map] at hm
  obtain ⟨m0, hm0, rfl⟩ := hm
  have hm0' : m0 ∈ s.masks :=
    (filterZip_sublist _ s.masks).subset hm0
  exact maskDims_crop2d _ _ _ _ hrect (halign m0 hm0')

theorem rsc_core_some {s : Sample} {min_iou max_iou : Option ℚ}
    {w h left top : ℚ} {out : Sample}
    (hcore : rsc_core s min_iou max_iou w h left top = some out) :
    out = rscOutput s (pyInt left) (pyInt top) (pyInt (left + w))
      (pyInt (top + h)) := by
  simp only [rsc_core] at hcore
  split at hcore
  · exact Option.noConfusion hcore
  · split at hcore
    · exact Option.noConfusion hcore
    · split at hcore
      · exact Option.noConfusion hcore
      · exact (Option.some_inj.mp hcore).symm

theorem rscTrial_some {s : Sample} {min_iou max_iou : Option ℚ}
    {r : RandSrc} {out : Sample}
    (h : (rscTrial s min_iou max_iou r).1 = some out) :
    ∃ w hh left top, rsc_core s min_iou max_iou w hh left top = some out := by
  simp only [rscTrial, drawUniform] at h
  split at h
  · exact Option.noConfusion h
  · exact ⟨_, _, _, _, h⟩

theorem rscTrials_some {s : Sample} {min_iou max_iou : Option ℚ}
    (k : ℕ) :
    ∀ (r r2 : RandSrc) (out : Sample),
      rscTrials k s min_iou max_iou r = (some out, r2) →
      ∃ w hh left top, rsc_core s min_iou max_iou w hh left top = some out := by
  induction k with
  | zero =>
    intro r r2 out h
    exact Option.noConfusion (congrArg Prod.fst h)
  | succ k ih =>
    intro r r2 out h
    rw [rscTrials] at h
    rcases htr : rscTrial s min_iou max_iou r with ⟨o, r3⟩
    rw [htr] at h
    cases o with
    | some out2 =>
      have : out2 = out := by
        simpa using congrArg Prod.fst h
      subst this
      exact rscTrial_some (by rw [htr])
    | none => exact ih r3 r2 out h

theorem randomSampleCrop_some {s : Sample} (fuel : ℕ) :
    ∀ (r r2 : RandSrc) (out : Sample),
      randomSampleCrop fuel s r = some (out, r2) →
      out = s ∨ ∃ min_iou max_iou w hh left top,
        rsc_core s min_iou max_iou w hh left top = some out := by
  induction fuel with
  | zero => intro r r2 out h; exact Option.noConfusion h
  | succ fuel ih =>
    intro r r2 out h
    rw [randomSampleCrop] at h
    rcases hdc : drawChoice r with ⟨i, r1⟩
    rw [hdc] at h
    simp only [] at h
    rcases hopt : sample_options.getD (i % 6) none with _ | ⟨mi, ma⟩
    · rw [hopt] at h
      left
      have := Option.some_inj.mp h
      exact (congrArg Prod.fst this).symm
    · rw [hopt] at h
      simp only [] at h
      rcases htr : rscTrials 50 s mi ma r1 with ⟨o, r3⟩
      rw [htr] at h
      cases o with
      | some out2 =>
        have hout : out2 = out := by
          have := Option.some_inj.mp h
          exact congrArg Prod.fst this
        subst hout
        exact Or.inr ⟨mi, ma, rscTrials_some 50 _ _ _ htr⟩
      | none => exact ih r3 r2 out h

theorem countP_range_le (m k n : ℕ) :
    (List.range n).countP (fun i => decide (m ≤ i + k)) ≤ n + k - m := by
  induction n with
  | zero => simp
  | succ n ih =>
    rw [List.range_succ, List.countP_append]
    have hsing : List.countP (fun i => decide (m ≤ i + k)) [n] ≤ 1 := by
      simp only [List.countP_singleton]
      split <;> omega
    by_cases hmk : m ≤ n + k
    · omega
    · have hz : List.countP (fun i => decide (m ≤ i + k)) [n] = 0 := by
        simp [List.countP_singleton, hmk]
      omega

theorem countP_crowdMask_le (n k : ℕ) : (crowdMask n k).countP id ≤ k := by
  unfold crowdMask
  rw [List.countP_map]
  have h := countP_range_le n k n
  have he : ((fun c => id c) ∘ fun i => decide (n ≤ i + k)) =
      fun i => decide (n ≤ i + k) := rfl
  rw [he]
  omega

theorem length_crowdMask (n k : ℕ) : (crowdMask n k).length = n := by
  simp [crowdMask]

theorem rscOutput_num_crowds_le (s : Sample) (rx1 ry1 rx2 ry2 : ℤ) :
    (rscOutput s rx1 ry1 rx2 ry2).labels.num_crowds ≤ s.labels.num_crowds := by
  simp only [rscOutput]
  split
  · calc (filterZip (rscMask s rx1 ry1 rx2 ry2)
          (crowdMask (rscMask s rx1 ry1 rx2 ry2).length
            s.labels.num_crowds)).countP id
        ≤ (crowdMask (rscMask s rx1 ry1 rx2 ry2).length
            s.labels.num_crowds).countP id :=
          (filterZip_sublist _ _).countP_le _
      _ ≤ s.labels.num_crowds := countP_crowdMask_le _ _
  · exact le_refl _

theorem rscOutput_num_crowds_le_boxes (s : Sample) (rx1 ry1 rx2 ry2 : ℤ) :
    (rscOutput s rx1 ry1 rx2 ry2).labels.num_crowds ≤
      (rscOutput s rx1 ry1 rx2 ry2).boxes.length := by
  simp only [rscOutput, List.length_map]
  have hmask : s.boxes.length = (rscMask s rx1 ry1 rx2 ry2).length :=
    (List.length_map _ _).symm
  have hcm : (crowdMask (rscMask s rx1 ry1 rx2 ry2).length
      s.labels.num_crowds).length = (rscMask s rx1 ry1 rx2 ry2).length :=
    length_crowdMask _ _
  rw [filterZip_length_eq _ _ hmask]
  split
  · calc (filterZip (rscMask s rx1 ry1 rx2 ry2)
          (crowdMask (rscMask s rx1 ry1 rx2 ry2).length
            s.labels.num_crowds)).countP id
        ≤ (filterZip (rscMask s rx1 ry1 rx2 ry2)
          (crowdMask (rscMask s rx1 ry1 rx2 ry2).length
            s.labels.num_crowds)).length := List.countP_le_length _
      _ = (rscMask s rx1 ry1 rx2 ry2).countP id :=
          filterZip_length_eq _ _ hcm
  · rename_i hnc
    push_neg at hnc
    rw [Nat.le_zero.mp hnc]
    exact Nat.zero_le _

theorem expand_labels_and_len (s : Sample) (r : RandSrc) :
    (expand s r).1.labels = s.labels ∧
    (expand s r).1.boxes.length = s.boxes.length := by
  rcases hdc : drawCoin r with ⟨coin, r1⟩
  cases coin <;>
    simp [expand, hdc, drawUniform, expandBranch]

theorem randomMirror_labels_and_len (s : Sample) (r : RandSrc) :
    (randomMirror s r).1.labels = s.labels ∧
    (randomMirror s r).1.boxes.length = s.boxes.length := by
  rcases hdc : drawCoin r with ⟨coin, r1⟩
  cases coin <;>
    simp [randomMirror, hdc, mirrorSample]

theorem resize_labels_and_len (s : Sample) (img_size : ℕ) (resize_gt : Bool) :
    (resize img_size resize_gt s).labels = s.labels ∧
    (resize img_size resize_gt s).boxes.length = s.boxes.length := by
  cases resize_gt <;> simp [resize]

theorem rscOutput_boxes_mem {s : Sample} {rx1 ry1 rx2 ry2 : ℤ} {b : Box}
    (hb : b ∈ (rscOutput s rx1 ry1 rx2 ry2).boxes) :
    ∃ b0 ∈ s.boxes, rscSurvives rx1 ry1 rx2 ry2 b0 = true ∧
      b = rscAdjust rx1 ry1 rx2 ry2 b0 := by
  simp only [rscOutput, List.mem_map] at hb
  obtain ⟨b0, hb0, rfl⟩ := hb
  obtain ⟨hs, hmem⟩ := mem_filterZip_map (rscSurvives rx1 ry1 rx2 ry2) s.boxes b0 hb0
  exact ⟨b0, hmem, hs, rfl⟩

theorem rscAdjust_bounds {rx1 ry1 rx2 ry2 : ℤ} {b0 : Box}
    (hwf : wfBox b0) (hs : rscSurvives rx1 ry1 rx2 ry2 b0 = true) :
    wfBox (rscAdjust rx1 ry1 rx2 ry2 b0) ∧
    boxInCrop ((rx2 : ℚ) - (rx1 : ℚ)) ((ry2 : ℚ) - (ry1 : ℚ))
      (rscAdjust rx1 ry1 rx2 ry2 b0) := by
  obtain ⟨hx, hy⟩ := hwf
  simp only [rscSurvives, Bool.and_eq_true, decide_eq_true_eq, centerX,
    centerY] at hs
  obtain ⟨⟨h1, h2⟩, h3, h4⟩ := hs
  have hxmax : max b0.x1 (rx1 : ℚ) ≤ min b0.x2 (rx2 : ℚ) := by
    apply max_le
    · exact le_min hx (by linarith)
    · exact le_min (by linarith) (by linarith)
  have hymax : max b0.y1 (ry1 : ℚ) ≤ min b0.y2 (ry2 : ℚ) := by
    apply max_le
    · exact le_min hy (by linarith)
    · exact le_min (by linarith) (by linarith)
  have hx1lo := le_max_right b0.x1 (rx1 : ℚ)
  have hy1lo := le_max_right b0.y1 (ry1 : ℚ)
  have hx1hi : max b0.x1 (rx1 : ℚ) ≤ (rx2 : ℚ) :=
    max_le (by linarith) (by linarith)
  have hy1hi : max b0.y1 (ry1 : ℚ) ≤ (ry2 : ℚ) :=
    max_le (by linarith) (by linarith)
  have hx2lo : (rx1 : ℚ) ≤ min b0.x2 (rx2 : ℚ) :=
    le_min (by linarith) (by linarith)
  have hy2lo : (ry1 : ℚ) ≤ min b0.y2 (ry2 : ℚ) :=
    le_min (by linarith) (by linarith)
  have hx2hi := min_le_right b0.x2 (rx2 : ℚ)
  have hy2hi := min_le_right b0.y2 (ry2 : ℚ)
  unfold wfBox boxInCrop rscAdjust
  simp only
  refine ⟨⟨by linarith, by linarith⟩, by linarith, by linarith, by linarith,
    by linarith, by linarith, by linarith, by linarith, by linarith⟩

theorem masksMatchImage_expand (s : Sample) (r : RandSrc)
    (halign : masksMatchImage s.image s.masks) :
    masksMatchImage (expand s r).1.image (expand s r).1.masks := by
  rcases hdc : drawCoin r with ⟨coin, r1⟩
  cases coin
  · simpa [expand, hdc] using halign
  · have hgoal : (expand s r).1 = expandBranch s
        (drawUniform 1 4 r1).1
        (drawUniform 1 ((imWidth s.image : ℚ) * (drawUniform 1 4 r1).1 -
          (imWidth s.image : ℚ)) (drawUniform 1 4 r1).2).1
        (drawUniform 1 ((imHeight s.image : ℚ) * (drawUniform 1 4 r1).1 -
          (imHeight s.image : ℚ))
          (drawUniform 1 ((imWidth s.image : ℚ) * (drawUniform 1 4 r1).1 -
            (imWidth s.image : ℚ)) (drawUniform 1 4 r1).2).2).1 := by
      simp [expand, hdc]
    rw [hgoal]
    exact masksMatchImage_expandBranch s _ _ _

theorem masksMatchImage_randomMirror (s : Sample) (r : RandSrc)
    (halign : masksMatchImage s.image s.masks) :
    masksMatchImage (randomMirror s r).1.image (randomMirror s r).1.masks := by
  rcases hdc : drawCoin r with ⟨coin, r1⟩
  cases coin
  · simpa [randomMirror, hdc] using halign
  · have hgoal : (randomMirror s r).1 = mirrorSample s := by
      simp [randomMirror, hdc]
    rw [hgoal]
    exact masksMatchImage_mirrorSample halign

/-- C3 fails as stated: with ground-truth processing disabled, `Resize`
changes the image size but leaves the masks untouched, so the
spatial-alignment invariant is violated on an aligned 1×1 input resized
to 2×2. -/
theorem C3_counterexample :
    masksMatchImage sC3.image sC3.masks ∧
    ¬ masksMatchImage (resize 2 false sC3).image (resize 2 false sC3).masks := by
  decide

/-- C3 (amended): the spatial-alignment invariant `masks.shape[1:] ==
image.shape[:2]` is preserved by `Expand`, `RandomMirror` and
`RandomSampleCrop` for every draw, and by `Resize` and `Pad` when
ground-truth processing is enabled; with ground-truth processing disabled
`Resize` and `Pad` leave the masks untouched and the invariant can fail. -/
theorem C3_spatial_alignment (s : Sample) (r r2 : RandSrc)
    (img_size width height fuel : ℕ) (out : Sample)
    (halign : masksMatchImage s.image s.masks)
    (hrect : rectangularImage s.image)
    (hcrop : randomSampleCrop fuel s r = some (out, r2)) :
    masksMatchImage (expand s r).1.image (expand s r).1.masks ∧
    masksMatchImage (randomMirror s r).1.image (randomMirror s r).1.masks ∧
    masksMatchImage out.image out.masks ∧
    masksMatchImage (resize img_size true s).image
      (resize img_size true s).masks ∧
    masksMatchImage (pad width height true s).image
      (pad width height true s).masks := by
  refine ⟨masksMatchImage_expand s r halign,
    masksMatchImage_randomMirror s r halign, ?_,
    masksMatchImage_resize_gt s img_size,
    masksMatchImage_pad_gt s width height⟩
  rcases randomSampleCrop_some fuel r r2 out hcrop with rfl | ⟨mi, ma, w, hh, l, t, hcore⟩
  · exact halign
  · rw [rsc_core_some hcore]
    exact masksMatchImage_rscOutput _ _ _ _ halign hrect

unseal Rat.add Rat.mul Rat.inv Rat.sub in
/-- Witness for C3 (amended) at a 1×1 aligned sample and a crop run that
draws the no-crop mode. -/
theorem C3_spatial_alignment_witness :
    masksMatchImage sC3.image sC3.masks ∧ rectangularImage sC3.image ∧
    randomSampleCrop 1 sC3 rNoop3 = some (sC3, ⟨[], [], []⟩) ∧
    (masksMatchImage (expand sC3 rNoop3).1.image (expand sC3 rNoop3).1.masks ∧
     masksMatchImage (randomMirror sC3 rNoop3).1.image
       (randomMirror sC3 rNoop3).1.masks ∧
     masksMatchImage sC3.image sC3.masks ∧
     masksMatchImage (resize 2 true sC3).image (resize 2 true sC3).masks ∧
     masksMatchImage (pad 3 4 true sC3).image (pad 3 4 true sC3).masks) :=
  ⟨by decide, by decide, by decide,
   C3_spatial_alignment sC3 rNoop3 ⟨[], [], []⟩ 2 3 4 1 sC3 (by decide)
     (by decide) (by decide)⟩

unseal Rat.add Rat.mul Rat.inv Rat.sub in
/-- C1 fails as stated (no box well-formedness is assumed): on an aligned
sample whose single box is inverted (`x1 > x2`), a complete
`RandomSampleCrop` run with rectangle `(3, 1, 8, 6)` (crop size 5×5)
returns the box `(7, 1, -3, 2)`, which lies outside `[0, 5] × [0, 5]`. -/
theorem C1_counterexample :
    randomSampleCrop 1 sC1 rC1 = some (outC1, ⟨[], [], []⟩) ∧
    (⟨7, 1, -3, 2⟩ : Box) ∈ outC1.boxes ∧
    ¬ boxInCrop 5 5 ⟨7, 1, -3, 2⟩ := by
  decide

/-- C1 (amended): for index-aligned annotation arrays whose boxes are
well-formed (`x1 ≤ x2`, `y1 ≤ y2`), a successful crop attempt returns boxes
inside `[0, rect_x2 - rect_x1] × [0, rect_y2 - rect_y1]` and boxes, masks
and labels of equal length. -/
theorem C1_crop_bounds (s : Sample) (min_iou max_iou : Option ℚ)
    (w h left top : ℚ) (out : Sample)
    (halign : s.masks.length = s.boxes.length ∧
      s.labels.labels.length = s.boxes.length)
    (hwf : ∀ b ∈ s.boxes, wfBox b)
    (hcore : rsc_core s min_iou max_iou w h left top = some out) :
    (∀ b ∈ out.boxes,
      boxInCrop ((pyInt (left + w) : ℚ) - (pyInt left : ℚ))
        ((pyInt (top + h) : ℚ) - (pyInt top : ℚ)) b) ∧
    out.boxes.length = out.masks.length ∧
    out.boxes.length = out.labels.labels.length := by
  obtain ⟨hm, hl⟩ := halign
  have hout := rsc_core_some hcore
  subst hout
  refine ⟨?_, ?_, ?_⟩
  · intro b hb
    obtain ⟨b0, hmem, hs, rfl⟩ := rscOutput_boxes_mem hb
    exact (rscAdjust_bounds (hwf b0 hmem) hs).2
  · simp only [rscOutput, List.length_map]
    have h1 : s.boxes.length = (rscMask s (pyInt left) (pyInt top)
        (pyInt (left + w)) (pyInt (top + h))).length :=
      (List.length_map _ _).symm
    have h2 : s.masks.length = (rscMask s (pyInt left) (pyInt top)
        (pyInt (left + w)) (pyInt (top + h))).length := by
      rw [hm]; exact h1
    rw [filterZip_length_eq _ _ h1, filterZip_length_eq _ _ h2]
  · simp only [rscOutput, List.length_map]
    have h1 : s.boxes.length = (rscMask s (pyInt left) (pyInt top)
        (pyInt (left + w)) (pyInt (top + h))).length :=
      (List.length_map _ _).symm
    have h3 : s.labels.labels.length = (rscMask s (pyInt left) (pyInt top)
        (pyInt (left + w)) (pyInt (top + h))).length := by
      rw [hl]; exact h1
    rw [filterZip_length_eq _ _ h1, filterZip_length_eq _ _ h3]

unseal Rat.add Rat.mul Rat.inv Rat.sub in
/-- Witness for C1 (amended): a successful crop attempt on a well-formed
aligned sample with rectangle `(3, 1, 8, 6)`. -/
theorem C1_crop_bounds_witness :
    (sW1.masks.length = sW1.boxes.length ∧
      sW1.labels.labels.length = sW1.boxes.length) ∧
    (∀ b ∈ sW1.boxes, wfBox b) ∧
    rsc_core sW1 (some (1/10)) none 5 5 3 1 = some outW1 ∧
    ((∀ b ∈ outW1.boxes,
        boxInCrop ((pyInt ((3 : ℚ) + 5) : ℚ) - (pyInt (3 : ℚ) : ℚ))
          ((pyInt ((1 : ℚ) + 5) : ℚ) - (pyInt (1 : ℚ) : ℚ)) b) ∧
      outW1.boxes.length = outW1.masks.length ∧
      outW1.boxes.length = outW1.labels.labels.length) :=
  ⟨⟨by decide, by decide⟩, by decide, by decide,
   C1_crop_bounds sW1 (some (1/10)) none 5 5 3 1 outW1
     ⟨by decide, by decide⟩ (by decide) (by decide)⟩

/-- C4: after a complete `RandomSampleCrop` run the recomputed `num_crowds`
never exceeds the original, and after each of RandomSampleCrop, Expand,
RandomMirror and Resize `num_crowds` never exceeds the number of boxes
returned (given that it did not on input). -/
theorem C4_num_crowds (s : Sample) (r r2 : RandSrc) (img_size fuel : ℕ)
    (resize_gt : Bool) (out : Sample)
    (hnc : s.labels.num_crowds ≤ s.boxes.length)
    (hcrop : randomSampleCrop fuel s r = some (out, r2)) :
    out.labels.num_crowds ≤ s.labels.num_crowds ∧
    out.labels.num_crowds ≤ out.boxes.length ∧
    (expand s r).1.labels.num_crowds ≤ (expand s r).1.boxes.length ∧
    (randomMirror s r).1.labels.num_crowds ≤
      (randomMirror s r).1.boxes.length ∧
    (resize img_size resize_gt s).labels.num_crowds ≤
      (resize img_size resize_gt s).boxes.length := by
  have hexp := expand_labels_and_len s r
  have hmir := randomMirror_labels_and_len s r
  have hres := resize_labels_and_len s img_size resize_gt
  refine ⟨?_, ?_, ?_, ?_, ?_⟩
  · rcases randomSampleCrop_some fuel r r2 out hcrop with rfl | ⟨mi, ma, w, hh, l, t, hcore⟩
    · exact le_refl _
    · rw [rsc_core_some hcore]
      exact rscOutput_num_crowds_le s _ _ _ _
  · rcases randomSampleCrop_some fuel r r2 out hcrop with rfl | ⟨mi, ma, w, hh, l, t, hcore⟩
    · exact hnc
    · rw [rsc_core_some hcore]
      exact rscOutput_num_crowds_le_boxes s _ _ _ _
  · rw [hexp.1, hexp.2]
    exact hnc
  · rw [hmir.1, hmir.2]
    exact hnc
  · rw [hres.1, hres.2]
    exact hnc

/-- Witness for C4 at a sample with one crowd among two boxes and a crop
run drawing the no-crop mode. -/
theorem C4_num_crowds_witness :
    sW4.labels.num_crowds ≤ sW4.boxes.length ∧
    randomSampleCrop 1 sW4 rNoop4 = some (sW4, ⟨[], [], []⟩) ∧
    (sW4.labels.num_crowds ≤ sW4.labels.num_crowds ∧
     sW4.labels.num_crowds ≤ sW4.boxes.length ∧
     (expand sW4 rNoop4).1.labels.num_crowds ≤
       (expand sW4 rNoop4).1.boxes.length ∧
     (randomMirror sW4 rNoop4).1.labels.num_crowds ≤
       (randomMirror sW4 rNoop4).1.boxes.length ∧
     (resize 3 true sW4).labels.num_crowds ≤ (resize 3 true sW4).boxes.length) :=
  ⟨by decide, by decide,
   C4_num_crowds sW4 rNoop4 ⟨[], [], []⟩ 3 1 true sW4 (by decide) (by decide)⟩

theorem expand_eq_cases (s : Sample) (r : RandSrc) :
    (expand s r).1 = s ∨
    ∃ ratio left top, (expand s r).1 = expandBranch s ratio left top := by
  rcases hdc : drawCoin r with ⟨coin, r1⟩
  cases coin
  · left
    simp [expand, hdc]
  · right
    refine ⟨(drawUniform 1 4 r1).1,
      (drawUniform 1 ((imWidth s.image : ℚ) * (drawUniform 1 4 r1).1 -
        (imWidth s.image : ℚ)) (drawUniform 1 4 r1).2).1,
      (drawUniform 1 ((imHeight s.image : ℚ) * (drawUniform 1 4 r1).1 -
        (imHeight s.image : ℚ))
        (drawUniform 1 ((imWidth s.image : ℚ) * (drawUniform 1 4 r1).1 -
          (imWidth s.image : ℚ)) (drawUniform 1 4 r1).2).2).1, ?_⟩
    simp [expand, hdc]

theorem randomMirror_eq_cases (s : Sample) (r : RandSrc) :
    (randomMirror s r).1 = s ∨ (randomMirror s r).1 = mirrorSample s := by
  rcases hdc : drawCoin r with ⟨coin, r1⟩
  cases coin
  · left
    simp [randomMirror, hdc]
  · right
    simp [randomMirror, hdc]

/-- C10: every box-touching geometric transform preserves box
well-formedness (`x1 ≤ x2 ∧ y1 ≤ y2`), for inputs with well-formed boxes
and positive image dimensions; for `RandomSampleCrop` this covers every
complete run, because only boxes whose center lies strictly inside the
crop rectangle survive the clip-then-translate step. -/
theorem C10_wf_preservation (s : Sample) (r r2 : RandSrc)
    (img_size fuel : ℕ) (out : Sample)
    (hwf : ∀ b ∈ s.boxes, wfBox b)
    (hh : 0 < imHeight s.image) (hw : 0 < imWidth s.image)
    (hcrop : randomSampleCrop fuel s r = some (out, r2)) :
    (∀ b ∈ (toAbsoluteCoords s).boxes, wfBox b) ∧
    (∀ b ∈ (toPercentCoords s).boxes, wfBox b) ∧
    (∀ b ∈ (expand s r).1.boxes, wfBox b) ∧
    (∀ b ∈ (randomMirror s r).1.boxes, wfBox b) ∧
    (∀ b ∈ (resize img_size true s).boxes, wfBox b) ∧
    (∀ b ∈ out.boxes, wfBox b) := by
  have hWq : (0 : ℚ) ≤ (imWidth s.image : ℚ) := Nat.cast_nonneg _
  have hHq : (0 : ℚ) ≤ (imHeight s.image : ℚ) := Nat.cast_nonneg _
  have hWq' : (0 : ℚ) < (imWidth s.image : ℚ) := by exact_mod_cast hw
  have hHq' : (0 : ℚ) < (imHeight s.image : ℚ) := by exact_mod_cast hh
  refine ⟨?_, ?_, ?_, ?_, ?_, ?_⟩
  · intro b hb
    simp only [toAbsoluteCoords, List.mem_map] at hb
    obtain ⟨b0, hb0, rfl⟩ := hb
    obtain ⟨hx, hy⟩ := hwf b0 hb0
    exact ⟨mul_le_mul_of_nonneg_right hx hWq,
      mul_le_mul_of_nonneg_right hy hHq⟩
  · intro b hb
    simp only [toPercentCoords, List.mem_map] at hb
    obtain ⟨b0, hb0, rfl⟩ := hb
    obtain ⟨hx, hy⟩ := hwf b0 hb0
    exact ⟨div_le_div_of_nonneg_right hx hWq,
      div_le_div_of_nonneg_right hy hHq⟩
  · intro b hb
    rcases expand_eq_cases s r with heq | ⟨ratio, left, top, heq⟩
    · rw [heq] at hb
      exact hwf b hb
    · rw [heq] at hb
      simp only [expandBranch, List.mem_map] at hb
      obtain ⟨b0, hb0, rfl⟩ := hb
      obtain ⟨hx, hy⟩ := hwf b0 hb0
      exact ⟨add_le_add_right hx _, add_le_add_right hy _⟩
  · intro b hb
    rcases randomMirror_eq_cases s r with heq | heq
    · rw [heq] at hb
      exact hwf b hb
    · rw [heq] at hb
      simp only [mirrorSample, List.mem_map] at hb
      obtain ⟨b0, hb0, rfl⟩ := hb
      obtain ⟨hx, hy⟩ := hwf b0 hb0
      exact ⟨sub_le_sub_left hx _, hy⟩
  · intro b hb
    simp only [resize, if_true, List.mem_map] at hb
    obtain ⟨b0, hb0, rfl⟩ := hb
    obtain ⟨hx, hy⟩ := hwf b0 hb0
    have hrx : (0 : ℚ) ≤ (img_size : ℚ) / (imWidth s.image : ℚ) :=
      div_nonneg (Nat.cast_nonneg _) hWq
    have hry : (0 : ℚ) ≤ (img_size : ℚ) / (imHeight s.image : ℚ) :=
      div_nonneg (Nat.cast_nonneg _) hHq
    exact ⟨mul_le_mul_of_nonneg_right hx hrx,
      mul_le_mul_of_nonneg_right hy hry⟩
  · intro b hb
    rcases randomSampleCrop_some fuel r r2 out hcrop with rfl | ⟨mi, ma, w, hh2, l, t, hcore⟩
    · exact hwf b hb
    · rw [rsc_core_some hcore] at hb
      obtain ⟨b0, hmem, hs, rfl⟩ := rscOutput_boxes_mem hb
      exact (rscAdjust_bounds (hwf b0 hmem) hs).1

unseal Rat.add Rat.mul Rat.inv Rat.sub in
/-- Witness for C10 at a well-formed 2×2 sample and a crop run drawing the
no-crop mode. -/
theorem C10_wf_preservation_witness :
    (∀ b ∈ sW10.boxes, wfBox b) ∧ 0 < imHeight sW10.image ∧
    0 < imWidth sW10.image ∧
    randomSampleCrop 1 sW10 rNoop10 = some (sW10, ⟨[true], [], [1/3, 1/3, 1/3]⟩) ∧
    ((∀ b ∈ (toAbsoluteCoords sW10).boxes, wfBox b) ∧
     (∀ b ∈ (toPercentCoords sW10).boxes, wfBox b) ∧
     (∀ b ∈ (expand sW10 rNoop10).1.boxes, wfBox b) ∧
     (∀ b ∈ (randomMirror sW10 rNoop10).1.boxes, wfBox b) ∧
     (∀ b ∈ (resize 3 true sW10).boxes, wfBox b) ∧
     (∀ b ∈ sW10.boxes, wfBox b)) :=
  ⟨by decide, by decide, by decide, by decide,
   C10_wf_preservation sW10 rNoop10 ⟨[true], [], [1/3, 1/3, 1/3]⟩ 3 1 sW10
     (by decide) (by decide) (by decide) (by decide)⟩
